import Mathlib

set_option maxRecDepth 40000

/-!
Verification development for `sandboxed_api/tools/filewrapper/filewrapper.cc`,
a utility that wraps binary files in a generated C++ source file.

The definitions below are a shallow embedding of that file: bytes are `Nat`
values `< 256`, output characters are Lean `Char`s, the two generated text
artifacts are modelled as lists of emission chunks mirroring the exact
sequence of `absl::FPrintF` calls with their format constants and arguments.
-/

/-- Transcription of the `kCEscapedLen[256]` table inside `FWriteCEscapedC`
(filewrapper.cc lines 36-53), sixteen entries per row as in the source. -/
def kCEscapedLen : List Nat :=
  [4, 4, 4, 4, 4, 4, 4, 4, 4, 2, 2, 4, 4, 2, 4, 4,
   4, 4, 4, 4, 4, 4, 4, 4, 4, 4, 4, 4, 4, 4, 4, 4,
   1, 1, 2, 1, 1, 1, 1, 1, 1, 1, 1, 1, 1, 1, 1, 1,
   1, 1, 1, 1, 1, 1, 1, 1, 1, 1, 1, 1, 1, 1, 1, 2,
   1, 1, 1, 1, 1, 1, 1, 1, 1, 1, 1, 1, 1, 1, 1, 1,
   1, 1, 1, 1, 1, 1, 1, 1, 1, 1, 1, 1, 2, 1, 1, 1,
   1, 1, 1, 1, 1, 1, 1, 1, 1, 1, 1, 1, 1, 1, 1, 1,
   1, 1, 1, 1, 1, 1, 1, 1, 1, 1, 1, 1, 1, 1, 1, 4,
   4, 4, 4, 4, 4, 4, 4, 4, 4, 4, 4, 4, 4, 4, 4, 4,
   4, 4, 4, 4, 4, 4, 4, 4, 4, 4, 4, 4, 4, 4, 4, 4,
   4, 4, 4, 4, 4, 4, 4, 4, 4, 4, 4, 4, 4, 4, 4, 4,
   4, 4, 4, 4, 4, 4, 4, 4, 4, 4, 4, 4, 4, 4, 4, 4,
   4, 4, 4, 4, 4, 4, 4, 4, 4, 4, 4, 4, 4, 4, 4, 4,
   4, 4, 4, 4, 4, 4, 4, 4, 4, 4, 4, 4, 4, 4, 4, 4,
   4, 4, 4, 4, 4, 4, 4, 4, 4, 4, 4, 4, 4, 4, 4, 4,
   4, 4, 4, 4, 4, 4, 4, 4, 4, 4, 4, 4, 4, 4, 4, 4]

/-- Embedding of the `switch (c)` statement in the 2-character branch of
`FWriteCEscapedC` (lines 61-80): the character written after the backslash,
or nothing when no `case` matches (the switch has no `default`).
Byte 34 is the double quote, 39 the apostrophe, 92 the backslash. -/
def cEscapeSwitch (c : Nat) : List Char :=
  match c with
  | 0 => ['0']
  | 10 => ['n']
  | 13 => ['r']
  | 9 => ['t']
  | 34 => [Char.ofNat 34]
  | 39 => [Char.ofNat 39]
  | 92 => [Char.ofNat 92]
  | 63 => ['?']
  | _ => []

/-- Embedding of `FWriteCEscapedC` (filewrapper.cc lines 34-87): the sequence
of characters the function writes to the stream for input byte `c`.
Character 92 is the backslash, 48 is the digit zero. -/
def FWriteCEscapedC (c : Nat) : List Char :=
  let char_len := kCEscapedLen.getD c 0
  if char_len = 1 then
    [Char.ofNat c]
  else if char_len = 2 then
    Char.ofNat 92 :: cEscapeSwitch c
  else
    [Char.ofNat 92,
     Char.ofNat (48 + c / 64),
     Char.ofNat (48 + (c % 64) / 8),
     Char.ofNat (48 + c % 8)]

/-- Helper for the decoder: whether `c` is an octal digit, i.e. a character
between code 48 (the digit zero) and code 55 (the digit seven). -/
def isOctDigit (c : Char) : Bool :=
  48 ≤ c.toNat && c.toNat ≤ 55

/-- Modelled from the spec: the value of a C simple-escape-sequence character
per C17 section 6.4.4.4 (the character that follows the backslash), `none`
when the character does not form a simple escape. Used only to state the
round-trip law; decoding is not part of the repository's code. -/
def simpleEscapeVal (c : Char) : Option Nat :=
  if c = 'n' then some 10
  else if c = 'r' then some 13
  else if c = 't' then some 9
  else if c = Char.ofNat 34 then some 34
  else if c = Char.ofNat 39 then some 39
  else if c = Char.ofNat 92 then some 92
  else if c = '?' then some 63
  else if c = 'a' then some 7
  else if c = 'b' then some 8
  else if c = 'f' then some 12
  else if c = 'v' then some 11
  else none

/-- Modelled from the spec: decoding of one escape token of a C string
literal per C17 section 6.4.4.4 — either a plain (non-backslash) character,
or a backslash followed by a simple-escape character, or a backslash followed
by one to three octal digits. Returns the byte the token denotes, `none` when
the character list is not a single well-formed token. -/
def cDecodeToken : List Char → Option Nat
  | [c] =>
    if c = Char.ofNat 92 then none else some c.toNat
  | [c, e] =>
    if c = Char.ofNat 92 then
      if isOctDigit e then some (e.toNat - 48) else simpleEscapeVal e
    else none
  | [c, d1, d2] =>
    if c = Char.ofNat 92 && isOctDigit d1 && isOctDigit d2 then
      some (8 * (d1.toNat - 48) + (d2.toNat - 48))
    else none
  | [c, d1, d2, d3] =>
    if c = Char.ofNat 92 && isOctDigit d1 && isOctDigit d2 && isOctDigit d3 then
      some (64 * (d1.toNat - 48) + 8 * (d2.toNat - 48) + (d3.toNat - 48))
    else none
  | _ => none

/-- Exhaustive check behind the byte-level claims, proved once over `Fin 256`
and instantiated by the claim theorems below: round trip, token length in
one/two/four, agreement of the written length with the table, exactness of
the two-character set, the octal form of the four-character escape, and that
the escaper never writes a lone backslash. -/
theorem fwrite_exhaustive : ∀ i : Fin 256,
    cDecodeToken (FWriteCEscapedC i.val) = some i.val ∧
    (FWriteCEscapedC i.val).length = kCEscapedLen.getD i.val 0 ∧
    ((FWriteCEscapedC i.val).length = 1 ∨ (FWriteCEscapedC i.val).length = 2 ∨
      (FWriteCEscapedC i.val).length = 4) ∧
    ((FWriteCEscapedC i.val).length = 2 ↔
      (i.val = 9 ∨ i.val = 10 ∨ i.val = 13 ∨ i.val = 34 ∨ i.val = 63 ∨ i.val = 92)) ∧
    (kCEscapedLen.getD i.val 0 = 2 → (cEscapeSwitch i.val).length = 1) ∧
    ((FWriteCEscapedC i.val).length = 2 →
      FWriteCEscapedC i.val = Char.ofNat 92 :: cEscapeSwitch i.val) ∧
    (kCEscapedLen.getD i.val 0 = 4 →
      FWriteCEscapedC i.val =
        [Char.ofNat 92, Char.ofNat (48 + i.val / 64),
         Char.ofNat (48 + (i.val % 64) / 8), Char.ofNat (48 + i.val % 8)]) ∧
    FWriteCEscapedC i.val ≠ [Char.ofNat 92] := by
  decide

/-- C1: for every byte value 0-255, decoding the token sequence produced by
`FWriteCEscapedC` as a C string-literal escape yields exactly the original
byte, and the produced token sequence has length 1, 2, or 4 characters. -/
theorem fwrite_roundtrip (c : Nat) (hc : c < 256) :
    cDecodeToken (FWriteCEscapedC c) = some c ∧
    ((FWriteCEscapedC c).length = 1 ∨ (FWriteCEscapedC c).length = 2 ∨
      (FWriteCEscapedC c).length = 4) :=
  ⟨(fwrite_exhaustive ⟨c, hc⟩).1, (fwrite_exhaustive ⟨c, hc⟩).2.2.1⟩

/-- Witness for C1 at byte 200: the hypothesis `200 < 256` holds and the
round-trip and length facts are obtained from `fwrite_roundtrip`. -/
theorem fwrite_roundtrip_witness :
    (200 : Nat) < 256 ∧
    (cDecodeToken (FWriteCEscapedC 200) = some 200 ∧
      ((FWriteCEscapedC 200).length = 1 ∨ (FWriteCEscapedC 200).length = 2 ∨
        (FWriteCEscapedC 200).length = 4)) :=
  ⟨by decide, fwrite_roundtrip 200 (by decide)⟩

/-- C2 counterexample: the claim puts NUL (byte 0) and the apostrophe
(byte 39) in the short-escape set, but `FWriteCEscapedC` writes the NUL byte
as the 4-character octal escape backslash-0-0-0 and writes the apostrophe
raw as a single character, so neither receives a 2-character escape. -/
theorem shortEscape_claim_false :
    (FWriteCEscapedC 0).length = 4 ∧
    FWriteCEscapedC 0 = [Char.ofNat 92, '0', '0', '0'] ∧
    (FWriteCEscapedC 39).length = 1 ∧
    FWriteCEscapedC 39 = [Char.ofNat 39] := by
  decide

/-- C2 amended: the byte escaper emits a 2-character escape (backslash
followed by a designated letter or the character itself, per the source's
switch) for exactly the set: tab (9), newline (10), carriage return (13),
double quote (34), question mark (63), and backslash (92). NUL instead gets
the 4-character octal escape and the apostrophe is written unescaped. -/
theorem shortEscape_set_exact (c : Nat) (hc : c < 256) :
    ((FWriteCEscapedC c).length = 2 ↔
      (c = 9 ∨ c = 10 ∨ c = 13 ∨ c = 34 ∨ c = 63 ∨ c = 92)) ∧
    ((FWriteCEscapedC c).length = 2 →
      FWriteCEscapedC c = Char.ofNat 92 :: cEscapeSwitch c) :=
  ⟨(fwrite_exhaustive ⟨c, hc⟩).2.2.2.1, (fwrite_exhaustive ⟨c, hc⟩).2.2.2.2.2.1⟩

/-- Witness for C2 at byte 10 (newline): it is in the 2-character set and the
output is backslash followed by the switch's character for it. -/
theorem shortEscape_set_exact_witness :
    ((FWriteCEscapedC 10).length = 2 ↔
      ((10 : Nat) = 9 ∨ (10 : Nat) = 10 ∨ (10 : Nat) = 13 ∨ (10 : Nat) = 34 ∨
        (10 : Nat) = 63 ∨ (10 : Nat) = 92)) ∧
    ((FWriteCEscapedC 10).length = 2 →
      FWriteCEscapedC 10 = Char.ofNat 92 :: cEscapeSwitch 10) :=
  shortEscape_set_exact 10 (by decide)

/-- C3: every byte not classified as printable/safe (table entry 1) and not
classified as short-escape (table entry 2) is written as exactly 4
characters: a backslash followed by the three octal digits of value / 64,
(value % 64) / 8 and value % 8. -/
theorem octalEscape_form (c : Nat) (hc : c < 256)
    (h1 : kCEscapedLen.getD c 0 ≠ 1) (h2 : kCEscapedLen.getD c 0 ≠ 2) :
    FWriteCEscapedC c =
      [Char.ofNat 92, Char.ofNat (48 + c / 64),
       Char.ofNat (48 + (c % 64) / 8), Char.ofNat (48 + c % 8)] ∧
    (FWriteCEscapedC c).length = 4 := by
  have hlen := (fwrite_exhaustive ⟨c, hc⟩).2.1
  have h4 : kCEscapedLen.getD c 0 = 4 := by
    rcases (fwrite_exhaustive ⟨c, hc⟩).2.2.1 with h | h | h <;>
      rw [hlen] at h
    · exact absurd h h1
    · exact absurd h h2
    · exact h
  refine ⟨(fwrite_exhaustive ⟨c, hc⟩).2.2.2.2.2.2.1 h4, ?_⟩
  rw [(fwrite_exhaustive ⟨c, hc⟩).2.2.2.2.2.2.1 h4]; rfl

/-- Witness for C3 at byte 1 (a control character): its table entry is
neither 1 nor 2 and the escaper writes backslash-0-0-1. -/
theorem octalEscape_form_witness :
    (1 : Nat) < 256 ∧ kCEscapedLen.getD 1 0 ≠ 1 ∧ kCEscapedLen.getD 1 0 ≠ 2 ∧
    (FWriteCEscapedC 1 =
      [Char.ofNat 92, Char.ofNat (48 + 1 / 64),
       Char.ofNat (48 + (1 % 64) / 8), Char.ofNat (48 + 1 % 8)] ∧
    (FWriteCEscapedC 1).length = 4) :=
  ⟨by decide, by decide, by decide,
    octalEscape_form 1 (by decide) (by decide) (by decide)⟩

/-- C10: for every byte value 0-255 the number of characters written by
`FWriteCEscapedC` equals that byte's entry in `kCEscapedLen`; whenever the
table entry is 2 the switch matches some case (its result is one character),
and the escaper never emits a lone unpaired backslash. -/
theorem fwrite_len_matches_table (c : Nat) (hc : c < 256) :
    (FWriteCEscapedC c).length = kCEscapedLen.getD c 0 ∧
    (kCEscapedLen.getD c 0 = 2 → (cEscapeSwitch c).length = 1) ∧
    FWriteCEscapedC c ≠ [Char.ofNat 92] :=
  ⟨(fwrite_exhaustive ⟨c, hc⟩).2.1, (fwrite_exhaustive ⟨c, hc⟩).2.2.2.2.1,
    (fwrite_exhaustive ⟨c, hc⟩).2.2.2.2.2.2.2⟩

/-- Witness for C10 at byte 92 (backslash): length 2 matches the table, the
switch result has one character, and the output is not a lone backslash. -/
theorem fwrite_len_matches_table_witness :
    ((FWriteCEscapedC 92).length = kCEscapedLen.getD 92 0 ∧
      (kCEscapedLen.getD 92 0 = 2 → (cEscapeSwitch 92).length = 1) ∧
      FWriteCEscapedC 92 ≠ [Char.ofNat 92]) :=
  fwrite_len_matches_table 92 (by decide)

/-- Embedding of `absl::ascii_isalnum` on byte-valued characters: true for
the ASCII digits (48-57), upper-case letters (65-90) and lower-case letters
(97-122), false for everything else including all values of 128 and above. -/
def ascii_isalnum (c : Char) : Bool :=
  (48 ≤ c.toNat && c.toNat ≤ 57) || (65 ≤ c.toNat && c.toNat ≤ 90) ||
    (97 ≤ c.toNat && c.toNat ≤ 122)

/-- Embedding of the `std::replace_if` call that appears twice in `main`
(filewrapper.cc lines 226-228 and 264-266): every character for which
`!absl::ascii_isalnum(c)` holds is replaced by the underscore, code 95. -/
def replaceNonAlnum (s : String) : String :=
  String.mk (s.data.map fun c => if ascii_isalnum c then c else Char.ofNat 95)

/-- Embedding of `toc_ident = absl::StrReplaceAll(name, \x7b\x7b"-", "_"\x7d\x7d)`
(line 215). The pattern is the single character hyphen, so the replacement is
character-wise. -/
def tocIdentOf (name : String) : String :=
  String.mk (name.data.map fun c => if c = '-' then Char.ofNat 95 else c)

/-- Embedding of `header_guard` (lines 225-228): `StrFormat("%s_%s_H_",
package, toc_ident)` followed by the non-alphanumeric-to-underscore pass. -/
def headerGuardOf (package tocIdent : String) : String :=
  replaceNonAlnum (package ++ "_" ++ tocIdent ++ "_H_")

/-- Embedding of `ident = absl::StrCat("k", basename)` followed by the
non-alphanumeric-to-underscore pass (lines 263-266). -/
def dataIdentOf (basename : String) : String :=
  replaceNonAlnum ("k" ++ basename)

/-- Helper: whether a character is an ASCII digit (codes 48-57). -/
def isAsciiDigit (c : Char) : Bool :=
  48 ≤ c.toNat && c.toNat ≤ 57

/-- C6: every character of a sanitized identifier is alphanumeric or the
underscore, and the result is the character-wise image of the input in which
alphanumeric characters pass through unchanged and every other character
becomes the underscore (stated with `Forall₂` relating input to output). -/
theorem sanitizer_chars (s : String) (c : Char)
    (h : c ∈ (replaceNonAlnum s).data) :
    (ascii_isalnum c = true ∨ c = Char.ofNat 95) ∧
    List.Forall₂ (fun a b => b = if ascii_isalnum a then a else Char.ofNat 95)
      s.data (replaceNonAlnum s).data := by
  constructor
  · rcases List.mem_map.mp h with ⟨a, _, rfl⟩
    by_cases ha : ascii_isalnum a
    · left; simp [ha]
    · right; simp [ha]
  · simp only [replaceNonAlnum]
    rw [List.forall₂_map_right_iff]
    exact List.forall₂_same.mpr fun a _ => rfl

/-- Witness for C6: in the sanitized form of the string "a-b" the underscore
occurs, and the conclusion of `sanitizer_chars` holds for it. -/
theorem sanitizer_chars_witness :
    Char.ofNat 95 ∈ (replaceNonAlnum (String.mk ['a', '-', 'b'])).data ∧
    ((ascii_isalnum (Char.ofNat 95) = true ∨ Char.ofNat 95 = Char.ofNat 95) ∧
      List.Forall₂
        (fun a b => b = if ascii_isalnum a then a else Char.ofNat 95)
        (String.mk ['a', '-', 'b']).data
        (replaceNonAlnum (String.mk ['a', '-', 'b'])).data) :=
  ⟨by decide, sanitizer_chars (String.mk ['a', '-', 'b']) (Char.ofNat 95) (by decide)⟩

/-- C9: the generated data identifier is the character k followed by the
sanitized base name, so it always begins with k and its first character is
never an ASCII digit, whatever the input file's name. -/
theorem dataIdent_starts_with_k (basename : String) :
    (dataIdentOf basename).data = 'k' :: (replaceNonAlnum basename).data ∧
    (dataIdentOf basename).data.head? = some 'k' ∧
    ((dataIdentOf basename).data.head?.map isAsciiDigit) = some false := by
  obtain ⟨l⟩ := basename
  have hk : ascii_isalnum 'k' = true := by decide
  refine ⟨?_, ?_, ?_⟩ <;>
    simp [dataIdentOf, replaceNonAlnum, String.append, hk, isAsciiDigit]

/-- Model of one input file as the Transcoding Driver sees it: the base name
returned by the external `sapi::file_util::fileops::Basename` collaborator
and the byte stream `fgetc` yields until EOF. -/
structure InputFile where
  basename : String
  content : List Nat

/-- Embedding of the per-file copy loop in `main` (lines 271-277): each
`fgetc` consumes one byte and advances the stream position by one, and every
byte is passed to `FWriteCEscapedC`. The first component is the final stream
position, which is what `ftell` returns after the loop; the second is the
escaped text appended to the output. -/
def readLoop : List Nat → Nat → List Char → Nat × List Char
  | [], pos, acc => (pos, acc)
  | b :: rest, pos, acc => readLoop rest (pos + 1) (acc ++ FWriteCEscapedC b)

/-- Emission chunks of the generated header file: one constructor per
`absl::FPrintF` call in the header-writing block of `main` (lines 222-240),
carrying the arguments spliced into the corresponding format constant
(`kHFileHeaderFmt`, `kHNamespaceBeginFmt`, `kHFileTocDefsFmt`,
`kHNamespaceEndFmt`, `kHFileFooterFmt`). -/
inductive HChunk where
  | fileHeader (package tocIdent guard : String)
  | nsBegin (ns : String)
  | tocDefs (ident : String)
  | nsEnd (ns : String)
  | fileFooter (guard : String)
deriving DecidableEq

/-- Embedding of the header-writing block of `main` (lines 222-240): the
sequence of formatted writes into the `.h` output. The namespace chunks are
present exactly when `strlen(ns) > 0`. -/
def emitH (package name ns : String) : List HChunk :=
  let tocIdent := tocIdentOf name
  let header_guard := headerGuardOf package tocIdent
  let have_ns := 0 < ns.length
  [HChunk.fileHeader package tocIdent header_guard]
    ++ (if have_ns then [HChunk.nsBegin ns] else [])
    ++ [HChunk.tocDefs tocIdent]
    ++ (if have_ns then [HChunk.nsEnd ns] else [])
    ++ [HChunk.fileFooter header_guard]

/-- Emission chunks of the generated translation unit: one constructor per
`absl::FPrintF` call in the `.cc`-writing part of `main` (lines 242-288) plus
one for the escaped bytes the copy loop writes, carrying the arguments of the
corresponding format constant (`kCcFileHeaderFmt`, `kCcNamespaceBeginFmt`,
`kCcDataBeginFmt`, `kCcDataEndFmt`, `kCcFileTocDefsBegin`,
`kCcFileTocDefsEntryFmt`, `kCcFileTocDefsEndFmt`, `kCcNamespaceEndFmt`). -/
inductive CcChunk where
  | fileHeader (packageName : String)
  | nsBegin (ns : String)
  | dataBegin (ident : String)
  | dataBytes (chars : List Char)
  | dataEnd (size : Nat)
  | tocBegin
  | tocEntry (nm ident : String)
  | tocEnd (ident : String)
  | nsEnd (ns : String)
deriving DecidableEq

/-- Chunks one input file contributes to the data section (lines 267-277):
the `kCcDataBeginFmt` write with the sanitized identifier, the escaped bytes
from the copy loop, and the `kCcDataEndFmt` write with the `ftell` value. -/
def dataChunksOf (f : InputFile) : List CcChunk :=
  [CcChunk.dataBegin (dataIdentOf f.basename),
   CcChunk.dataBytes (readLoop f.content 0 []).2,
   CcChunk.dataEnd (readLoop f.content 0 []).1]

/-- The `kToc` entry chunk one input file contributes (lines 280-283):
`kCcFileTocDefsEntryFmt` is given the base name and the identifier. -/
def entryChunkOf (f : InputFile) : CcChunk :=
  CcChunk.tocEntry f.basename (dataIdentOf f.basename)

/-- Embedding of the `.cc`-writing part of `main` (lines 242-288): the
sequence of formatted writes into the `.cc` output. `package_name` gets a
slash appended exactly when the package is nonempty (lines 246-250). -/
def emitCc (package name ns : String) (files : List InputFile) : List CcChunk :=
  let tocIdent := tocIdentOf name
  let have_ns := 0 < ns.length
  let package_name := (if 0 < package.length then package ++ "/" else "") ++ name
  [CcChunk.fileHeader package_name]
    ++ (if have_ns then [CcChunk.nsBegin ns] else [])
    ++ (files.flatMap dataChunksOf)
    ++ [CcChunk.tocBegin]
    ++ files.map entryChunkOf
    ++ [CcChunk.tocEnd tocIdent]
    ++ (if have_ns then [CcChunk.nsEnd ns] else [])

/-- Size expression appearing in a `kToc` row of the generated array: either
a literal number (the sentinel's 0) or a reference `ident.size()` to the
`absl::string_view` constant named `ident`. -/
inductive SizeRef where
  | lit (n : Nat)
  | sizeOfIdent (ident : String)
deriving DecidableEq

/-- One row of the generated `kToc` array: the name (null for the sentinel),
the identifier whose `.data()` the row points at (null for the sentinel), and
the size expression. -/
structure TocEntry where
  name : Option String
  data : Option String
  size : SizeRef
deriving DecidableEq

/-- Rows of `kToc` denoted by one emission chunk: `kCcFileTocDefsEntryFmt`
emits one row per entry, and `kCcFileTocDefsEndFmt` (lines 182-195) emits the
terminating row with null name, null data pointer and literal size 0. -/
def tocRowsOf : CcChunk → List TocEntry
  | CcChunk.tocEntry nm ident =>
    [⟨some nm, some ident, SizeRef.sizeOfIdent ident⟩]
  | CcChunk.tocEnd _ => [⟨none, none, SizeRef.lit 0⟩]
  | _ => []

/-- The rows of the generated `kToc` array, in emission order. -/
def ccToc (chunks : List CcChunk) : List TocEntry :=
  chunks.flatMap tocRowsOf

/-- Whether a `kToc` row is the sentinel: null name, null data, literal 0. -/
def isSentinel (e : TocEntry) : Bool :=
  e.name.isNone && e.data.isNone && decide (e.size = SizeRef.lit 0)

/-- Value returned by the generated size accessor (lines 192-194):
`ABSL_ARRAYSIZE(kToc) - 1`. -/
def tocSizeAccessor (chunks : List CcChunk) : Nat :=
  (ccToc chunks).length - 1

/-- Sizes recorded by `kCcDataEndFmt` writes, in emission order: the `%d`
argument of line 277 for each input file. -/
def recSizeOf : CcChunk → List Nat
  | CcChunk.dataEnd n => [n]
  | _ => []

/-- All literal sizes recorded in the `.cc` output, in emission order. -/
def recordedSizes (chunks : List CcChunk) : List Nat :=
  chunks.flatMap recSizeOf

/-- Helper: the data-section chunks of the input files denote no `kToc`
rows. -/
theorem tocRows_dataChunks (files : List InputFile) :
    (files.flatMap dataChunksOf).flatMap tocRowsOf = [] := by
  induction files with
  | nil => rfl
  | cons f fs ih => simp [dataChunksOf, tocRowsOf, ih]

/-- Helper: each `kCcFileTocDefsEntryFmt` chunk denotes exactly one `kToc`
row carrying the file's base name and identifier. -/
theorem tocRows_entryChunks (files : List InputFile) :
    (files.map entryChunkOf).flatMap tocRowsOf =
      files.map (fun f =>
        TocEntry.mk (some f.basename) (some (dataIdentOf f.basename))
          (SizeRef.sizeOfIdent (dataIdentOf f.basename))) := by
  induction files with
  | nil => rfl
  | cons f fs ih => simp [entryChunkOf, tocRowsOf, ih]

/-- Helper: computed form of the generated `kToc` rows — one row per input
file in order, followed by the sentinel row. -/
theorem ccToc_emitCc (package name ns : String) (files : List InputFile) :
    ccToc (emitCc package name ns files) =
      files.map (fun f =>
        TocEntry.mk (some f.basename) (some (dataIdentOf f.basename))
          (SizeRef.sizeOfIdent (dataIdentOf f.basename)))
        ++ [TocEntry.mk none none (SizeRef.lit 0)] := by
  unfold ccToc emitCc
  by_cases hns : 0 < ns.length <;>
    simp [hns, tocRows_dataChunks, tocRows_entryChunks, tocRowsOf]

/-- C4: for every run with N input files the generated table of contents has
exactly N+1 rows; the last row is the sentinel with null name, null data
pointer and zero length; a sentinel row occurs exactly once; and the
generated size accessor returns exactly N. -/
theorem toc_shape (package name ns : String) (files : List InputFile) :
    (ccToc (emitCc package name ns files)).length = files.length + 1 ∧
    (ccToc (emitCc package name ns files)).getLast? =
      some (TocEntry.mk none none (SizeRef.lit 0)) ∧
    (ccToc (emitCc package name ns files)).countP isSentinel = 1 ∧
    tocSizeAccessor (emitCc package name ns files) = files.length := by
  have hrows := ccToc_emitCc package name ns files
  refine ⟨?_, ?_, ?_, ?_⟩
  · rw [hrows]; simp
  · rw [hrows]; simp
  · rw [hrows, List.countP_append]
    have hzero :
        (files.map (fun f =>
          TocEntry.mk (some f.basename) (some (dataIdentOf f.basename))
            (SizeRef.sizeOfIdent (dataIdentOf f.basename)))).countP
          isSentinel = 0 := by
      rw [List.countP_eq_zero]
      intro e he
      rcases List.mem_map.mp he with ⟨f, _, rfl⟩
      simp [isSentinel]
    rw [hzero]
    simp [isSentinel]
  · unfold tocSizeAccessor
    rw [hrows]; simp

/-- Helper: the copy loop ends at its starting position advanced by the
number of bytes consumed, and appends exactly the concatenation of the
escape token sequences of the bytes. -/
theorem readLoop_spec (content : List Nat) : ∀ pos acc,
    readLoop content pos acc =
      (pos + content.length, acc ++ content.flatMap FWriteCEscapedC) := by
  induction content with
  | nil => intro pos acc; simp [readLoop]
  | cons b rest ih =>
    intro pos acc
    rw [readLoop, ih]
    simp [List.append_assoc]
    omega

/-- Helper: the sizes recorded by the `kCcDataEndFmt` writes are the byte
counts of the input files, in order. -/
theorem recSizes_dataChunks (files : List InputFile) :
    (files.flatMap dataChunksOf).flatMap recSizeOf =
      files.map (fun f => f.content.length) := by
  induction files with
  | nil => rfl
  | cons f fs ih => simp [dataChunksOf, recSizeOf, ih, readLoop_spec]

/-- Helper: `kToc` entry chunks record no sizes. -/
theorem recSizes_entryChunks (files : List InputFile) :
    (files.map entryChunkOf).flatMap recSizeOf = [] := by
  induction files with
  | nil => rfl
  | cons f fs ih => simp [entryChunkOf, recSizeOf, ih]

/-- C5: for every input file the byte length recorded in the emitted
literal's size field (the `ftell` value written by `kCcDataEndFmt`) equals
the number of bytes read from that file, and the copy loop's final position
counts bytes consumed, not escaped characters. -/
theorem recorded_size_eq_bytes_read
    (package name ns : String) (files : List InputFile) :
    recordedSizes (emitCc package name ns files) =
      files.map (fun f => f.content.length) ∧
    ∀ content : List Nat, (readLoop content 0 []).1 = content.length := by
  constructor
  · unfold recordedSizes emitCc
    by_cases hns : 0 < ns.length <;>
      simp [hns, recSizes_dataChunks, recSizes_entryChunks, recSizeOf]
  · intro content
    rw [readLoop_spec]
    simp

/-- Per-chunk extraction of the identifier `kHFileTocDefsFmt` receives: the
base of the two accessor names declared in the header. -/
def hTocDefsOf : HChunk → List String
  | HChunk.tocDefs i => [i]
  | _ => []

/-- Per-chunk extraction of the header-guard token at its two sites in the
header: the `#ifndef`/`#define` pair of `kHFileHeaderFmt` and the `#endif`
of `kHFileFooterFmt`. -/
def hGuardsOf : HChunk → List String
  | HChunk.fileHeader _ _ g => [g]
  | HChunk.fileFooter g => [g]
  | _ => []

/-- Per-chunk extraction of the identifier `kCcFileTocDefsEndFmt` receives:
the base of the two accessor names defined in the translation unit. -/
def ccTocEndOf : CcChunk → List String
  | CcChunk.tocEnd i => [i]
  | _ => []

/-- Identifier bases of the accessor declarations in the header output. -/
def hTocDefIdents (chunks : List HChunk) : List String :=
  chunks.flatMap hTocDefsOf

/-- Header-guard tokens appearing in the header output, in order. -/
def hGuardTokens (chunks : List HChunk) : List String :=
  chunks.flatMap hGuardsOf

/-- Identifier bases of the accessor definitions in the `.cc` output. -/
def ccTocDefIdents (chunks : List CcChunk) : List String :=
  chunks.flatMap ccTocEndOf

/-- Accessor names derived from an identifier base: both `kHFileTocDefsFmt`
(lines 142-146) and `kCcFileTocDefsEndFmt` (lines 182-195) splice the same
`%1$s` argument into the names `%1$s_create` and `%1$s_size`. -/
def accessorNames (ident : String) : List String :=
  [ident ++ "_create", ident ++ "_size"]

/-- Helper: data-section chunks carry no accessor identifier. -/
theorem ccTocEnd_dataChunks (files : List InputFile) :
    (files.flatMap dataChunksOf).flatMap ccTocEndOf = [] := by
  induction files with
  | nil => rfl
  | cons f fs ih => simp [dataChunksOf, ccTocEndOf, ih]

/-- Helper: `kToc` entry chunks carry no accessor identifier. -/
theorem ccTocEnd_entryChunks (files : List InputFile) :
    (files.map entryChunkOf).flatMap ccTocEndOf = [] := by
  induction files with
  | nil => rfl
  | cons f fs ih => simp [entryChunkOf, ccTocEndOf, ih]

/-- C7: the header and the translation unit generated by one invocation name
their accessors from the same hyphen-folded NAME — both accessor identifier
bases equal `tocIdentOf name`, hence the accessor name lists coincide — and
the header-guard token is the same at both of its sites. -/
theorem artifacts_consistent
    (package name ns : String) (files : List InputFile) :
    hTocDefIdents (emitH package name ns) = [tocIdentOf name] ∧
    ccTocDefIdents (emitCc package name ns files) = [tocIdentOf name] ∧
    (hTocDefIdents (emitH package name ns)).flatMap accessorNames =
      (ccTocDefIdents (emitCc package name ns files)).flatMap accessorNames ∧
    hGuardTokens (emitH package name ns) =
      [headerGuardOf package (tocIdentOf name),
        headerGuardOf package (tocIdentOf name)] := by
  have h1 : hTocDefIdents (emitH package name ns) = [tocIdentOf name] := by
    unfold hTocDefIdents emitH
    by_cases hns : 0 < ns.length <;> simp [hns, hTocDefsOf]
  have h2 : ccTocDefIdents (emitCc package name ns files) =
      [tocIdentOf name] := by
    unfold ccTocDefIdents emitCc
    by_cases hns : 0 < ns.length <;>
      simp [hns, ccTocEnd_dataChunks, ccTocEnd_entryChunks, ccTocEndOf]
  refine ⟨h1, h2, by rw [h1, h2], ?_⟩
  unfold hGuardTokens emitH
  by_cases hns : 0 < ns.length <;> simp [hns, hGuardsOf]

/-- Outcome of one run of the tool: the exit code, the usage line printed to
the error stream (if any), and the two output artifacts (absent when never
opened). -/
structure RunResult where
  exitCode : Nat
  usage : Option String
  outH : Option (List HChunk)
  outCc : Option (List CcChunk)

/-- Usage line `main` prints to stderr on an arity violation (lines
205-207), with `argv[0]` spliced in front. -/
def usageMsg (prog : String) : String :=
  prog ++ " PACKAGE NAME NAMESPACE OUTPUT_H OUTPUT_CC INPUT...\n"

/-- Embedding of `main` (lines 201-292) over the argument vector and the two
external collaborators: the base-name function and the byte contents of each
readable input path (I/O failures are fatal and outside this model). With
fewer than 7 arguments it prints the usage line and returns `EXIT_FAILURE`
(1) without opening any output; otherwise it emits both artifacts from the
positional arguments and returns `EXIT_SUCCESS` (0). -/
def runMain (argv : List String) (basenameOf : String → String)
    (readFileBytes : String → List Nat) : RunResult :=
  if argv.length < 7 then
    ⟨1, some (usageMsg (argv.headD "")), none, none⟩
  else
    match argv with
    | _prog :: package :: name :: ns :: _outh :: _outcc :: inputs =>
      let files := inputs.map fun p =>
        InputFile.mk (basenameOf p) (readFileBytes p)
      ⟨0, none, some (emitH package name ns),
        some (emitCc package name ns files)⟩
    | _ => ⟨1, none, none, none⟩

/-- C8: with fewer than the required 7 arguments (program name, PACKAGE,
NAME, NAMESPACE, two output paths, and at least one input file) the program
reports usage to the error stream, exits with the non-zero code
`EXIT_FAILURE` = 1, and writes neither output artifact. -/
theorem usage_error (argv : List String) (basenameOf : String → String)
    (readFileBytes : String → List Nat) (h : argv.length < 7) :
    (runMain argv basenameOf readFileBytes).exitCode = 1 ∧
    (runMain argv basenameOf readFileBytes).exitCode ≠ 0 ∧
    (runMain argv basenameOf readFileBytes).usage =
      some (usageMsg (argv.headD "")) ∧
    (runMain argv basenameOf readFileBytes).outH = none ∧
    (runMain argv basenameOf readFileBytes).outCc = none := by
  simp [runMain, h]

/-- Witness for C8: invoking with only the program name (1 < 7 arguments)
yields exit code 1, the usage line, and no artifacts. -/
theorem usage_error_witness :
    (["filewrapper"] : List String).length < 7 ∧
    ((runMain ["filewrapper"] id fun _ => []).exitCode = 1 ∧
      (runMain ["filewrapper"] id fun _ => []).exitCode ≠ 0 ∧
      (runMain ["filewrapper"] id fun _ => []).usage =
        some (usageMsg ((["filewrapper"] : List String).headD "")) ∧
      (runMain ["filewrapper"] id fun _ => []).outH = none ∧
      (runMain ["filewrapper"] id fun _ => []).outCc = none) :=
  ⟨by decide, usage_error ["filewrapper"] id (fun _ => []) (by decide)⟩
